import Mathlib

/-!
Verification development for the Liberty Country music module
(`src/cogs/music_power.py`): a shallow embedding of the playback queue
engine, the per-guild player state, the scheduler-loop post-completion
dispatch, and the control-log ingestion protocol, together with theorems
settling the specification claims.

Python integers are modeled as `Int`, strings as `String`, mutable object
state as explicit record-update, and `asyncio.Event` flags as `Bool`.
External collaborators (the audio-extraction service, the transport, the
random shuffler) are parameters of the functions that call them.
-/

namespace LibertyCountryBot

/-- One playable item and its metadata (`Track` dataclass,
`music_power.py` lines 67-89).  `added_at` (a wall-clock stamp) is modeled
as an `Int`; no claim inspects it. -/
structure Track where
  title : String
  url : String
  webpage_url : String
  duration : Int
  requester_id : Int
  thumbnail : Option String
  added_at : Int
deriving Repr, DecidableEq

/-- Per-guild player state (`GuildPlayer.__init__`, lines 95-106).
`voice` models whether the transport handle is present and connected,
`next_event` and `vc_ready` model the `asyncio.Event` flags, and
`play_task` models whether the scheduler-loop task exists and is not done. -/
structure GuildPlayer where
  guild_id : Int
  queue : List Track
  volume : Int
  loop_mode : String
  current : Option Track
  voice : Bool
  next_event : Bool
  vc_ready : Bool
  play_task : Bool
deriving Repr, DecidableEq

/-- Freshly constructed player: empty queue, volume 100, loop mode `off`,
no current track, no transport, no running task. -/
def initPlayer (gid : Int) : GuildPlayer :=
  { guild_id := gid, queue := [], volume := 100, loop_mode := "off",
    current := none, voice := false, next_event := false,
    vc_ready := false, play_task := false }

/-- `GuildPlayer.q_move` (lines 121-128): 1-based indices; returns whether
the move happened together with the resulting queue.  Python `list.pop(i)`
followed by `list.insert(j, item)`; both indices bounds-checked first. -/
def q_move (q : List Track) (src dst : Int) : Bool × List Track :=
  let i : Int := src - 1
  let j : Int := dst - 1
  if i < 0 ∨ j < 0 ∨ (q.length : Int) ≤ i ∨ (q.length : Int) ≤ j then
    (false, q)
  else
    match q[i.toNat]? with
    | none => (false, q)
    | some item => (true, (q.eraseIdx i.toNat).insertIdx j.toNat item)

/-- `GuildPlayer.q_remove` (lines 130-134): 1-based index; returns the
removed track (or `none`) together with the resulting queue. -/
def q_remove (q : List Track) (index : Int) : Option Track × List Track :=
  let i : Int := index - 1
  if 0 ≤ i ∧ i < (q.length : Int) then
    match q[i.toNat]? with
    | none => (none, q)
    | some item => (some item, q.eraseIdx i.toNat)
  else (none, q)

/-- `GuildPlayer.q_add` (lines 115-119): push to head when `to_front`,
else to tail. -/
def q_add (gp : GuildPlayer) (t : Track) (to_front : Bool) : GuildPlayer :=
  { gp with queue := if to_front then t :: gp.queue else gp.queue ++ [t] }

/-- `GuildPlayer.q_clear` (lines 112-113). -/
def q_clear (gp : GuildPlayer) : GuildPlayer :=
  { gp with queue := [] }

/-- `GuildPlayer.disconnect` (lines 158-165): clears the queue and the
current slot, raises the completion event, disconnects and drops the
transport handle, clears the ready flag.  The `_play_task` field is not
touched by the source code of `disconnect`. -/
def disconnect (gp : GuildPlayer) : GuildPlayer :=
  { gp with queue := [], current := none, next_event := true,
            voice := false, vc_ready := false }

/-- `GuildPlayer.start_player_loop` (lines 167-170): no-op when a task is
already running, otherwise creates the task. -/
def start_player_loop (gp : GuildPlayer) : GuildPlayer :=
  if gp.play_task then gp else { gp with play_task := true }

/-- Post-completion repeat-mode dispatch of `GuildPlayer._player_loop`
(lines 193-202): `track` with a current track keeps everything as-is;
`queue` with a current track appends it to the tail and clears the slot;
every other case clears the slot. -/
def afterCompletion (gp : GuildPlayer) : GuildPlayer :=
  match gp.current with
  | some t =>
      if gp.loop_mode = "track" then gp
      else if gp.loop_mode = "queue" then
        { gp with queue := gp.queue ++ [t], current := none }
      else { gp with current := none }
  | none => { gp with current := none }

/-- `GuildPlayer._play_current_track` (lines 210-235) with the external
extraction collaborator passed in as `resolve`.  When there is no
transport or no current track it returns untouched; when extraction
yields no stream handle it raises the completion event (skip-on-failure);
on success the stream is handed to the transport (an external effect). -/
def playCurrentTrack (resolve : String → Option String) (gp : GuildPlayer) :
    GuildPlayer :=
  if gp.voice = false ∨ gp.current = none then gp
  else
    match gp.current with
    | none => gp
    | some t =>
        match resolve (if t.url = "" then t.webpage_url else t.url) with
        | none => { gp with next_event := true }
        | some _ => gp

/-- `GuildPlayer.set_volume` (lines 237-240): stores the level clamped to
the interval from 1 to 200 (the live-output update mirrors the same
stored value). -/
def set_volume (gp : GuildPlayer) (vol : Int) : GuildPlayer :=
  { gp with volume := max 1 (min 200 vol) }

/-- Python truthiness default for an optional string field:
`str(payload.get(k) or d)` yields `d` when the field is missing or empty. -/
def pyOrStr (o : Option String) (d : String) : String :=
  match o with
  | none => d
  | some s => if s = "" then d else s

/-- Python truthiness default for an optional integer field:
`int(payload.get(k) or d)` yields `d` when the field is missing or zero
(`0` is falsy in Python); any other integer, negative included, is kept. -/
def pyOrInt (o : Option Int) (d : Int) : Int :=
  match o with
  | none => d
  | some v => if v = 0 then d else v

/-- Python `str.lower()`: lower-case every character.  (Executable
character-list form of the library's string lowering.) -/
def pyLower (s : String) : String := ⟨s.data.map Char.toLower⟩

/-- The payload mapping of a control record (section 6 of the design):
every field the dispatcher may read, each optional.  `session_id` appears
in the documented record format but is modeled too so that theorems can
speak about records that carry it. -/
structure ControlPayload where
  guild_id : Option Int
  session_id : Option Int
  mode : Option String
  level : Option Int
  query : Option String
  user_id : Option Int
  index : Option Int
  src : Option Int
  dst : Option Int
deriving Repr, DecidableEq

/-- A payload with every field absent (`payload.get` misses on all keys). -/
def emptyPayload : ControlPayload :=
  { guild_id := none, session_id := none, mode := none, level := none,
    query := none, user_id := none, index := none, src := none, dst := none }

/-- One decoded control record: an action tag and a payload, either of
which may be absent in the decoded object. -/
structure ControlRecord where
  action : Option String
  payload : Option ControlPayload
deriving Repr, DecidableEq

/-- Cog state (`MusicPower.__init__`, line 364): the per-guild player
map, modeled as an insertion-ordered association list like a Python dict. -/
structure MusicPower where
  players : List (Int × GuildPlayer)
deriving Repr, DecidableEq

/-- `MusicPower.get_player` (lines 370-373): look the guild up, creating
and inserting a fresh player when absent. -/
def get_player (st : MusicPower) (gid : Int) : GuildPlayer × MusicPower :=
  match st.players.lookup gid with
  | some gp => (gp, st)
  | none => (initPlayer gid, ⟨st.players ++ [(gid, initPlayer gid)]⟩)

/-- Replace the value stored under a key (helper for `setPlayer`). -/
def setEntries : List (Int × GuildPlayer) → Int → GuildPlayer →
    List (Int × GuildPlayer)
  | [], _, _ => []
  | (k, v) :: es, gid, gp =>
      if k = gid then (k, gp) :: setEntries es gid gp
      else (k, v) :: setEntries es gid gp

/-- Store an updated player back under its key (in Python the mutation of
the `GuildPlayer` object in place). -/
def setPlayer (st : MusicPower) (gid : Int) (gp : GuildPlayer) : MusicPower :=
  ⟨setEntries st.players gid gp⟩

/-- The per-player effect of one control action
(`MusicPower._apply_control`, lines 442-497).  `shuffleImpl` stands for
`random.shuffle` and `ytdl` for the external `ytdl_search` collaborator.
`pause`, `resume` and `skip` only drive the transport; `stop` clears the
queue and current slot only when a transport handle is present. -/
def apply_player (shuffleImpl : List Track → List Track)
    (ytdl : String → List Track) (action : String) (p : ControlPayload)
    (gp : GuildPlayer) : GuildPlayer :=
  if action = "pause" ∨ action = "resume" ∨ action = "skip" then gp
  else if action = "stop" then
    if gp.voice then { gp with queue := [], current := none } else gp
  else if action = "shuffle" then { gp with queue := shuffleImpl gp.queue }
  else if action = "leave" then disconnect gp
  else if action = "clear" then q_clear gp
  else if action = "loop" then { gp with loop_mode := pyOrStr p.mode "off" }
  else if action = "volume" then set_volume gp (pyOrInt p.level 100)
  else if action = "play" ∨ action = "playtop" then
    let query := (pyOrStr p.query "").trim
    if query = "" then gp
    else
      let items := ytdl (if query.startsWith "http" then query
                         else "ytsearch:" ++ query)
      let gp' := match items.head? with
        | none => gp
        | some t =>
            q_add gp { t with requester_id := pyOrInt p.user_id 0 }
              (action = "playtop")
      start_player_loop gp'
  else if action = "queue_remove" then
    { gp with queue := (q_remove gp.queue (pyOrInt p.index 0)).2 }
  else if action = "queue_move" then
    { gp with queue :=
        (q_move gp.queue (pyOrInt p.src 0) (pyOrInt p.dst 0)).2 }
  else gp

/-- `MusicPower._apply_control` (lines 433-440 plus dispatch): lower-case
the action tag, resolve the session identifier from the payload key
`guild_id` only (missing or zero means unresolvable and the record is
dropped), fetch-or-create the player, and apply the action to it. -/
def apply_control (shuffleImpl : List Track → List Track)
    (ytdl : String → List Track) (st : MusicPower) (evt : ControlRecord) :
    MusicPower :=
  let action := pyLower (pyOrStr evt.action "")
  let p := evt.payload.getD emptyPayload
  let gid := (p.guild_id.getD 0)
  if gid = 0 then st
  else
    let gpst := get_player st gid
    setPlayer gpst.2 gid (apply_player shuffleImpl ytdl action p gpst.1)

/-- Slash command `/music volume` (`cmd_volume`, lines 685-690): stores
the level through `set_volume`. -/
def cmd_volume (gp : GuildPlayer) (level : Int) : GuildPlayer :=
  set_volume gp level

/-- Slash command `/music loop` (`cmd_loop`, lines 666-677): assigns the
mode string directly; the Discord choice list restricts the argument to
the four enum values before the handler runs. -/
def cmd_loop (gp : GuildPlayer) (mode : String) : GuildPlayer :=
  { gp with loop_mode := mode }

/-- The four repeat modes offered by the `/music loop` choice list. -/
def cmdLoopChoices : List String := ["off", "track", "queue", "auto"]

/-- The action tags `_apply_control` recognizes. -/
def recognizedActions : List String :=
  ["pause", "resume", "skip", "stop", "shuffle", "leave", "clear",
   "loop", "volume", "play", "playtop", "queue_remove", "queue_move"]

/-- Helper for `pySplitlines`: walk the bytes, emitting a segment at each
newline and a final fragment when the data does not end in one. -/
def pySplitlinesAux : List Char → List Char → List (List Char)
  | [], acc => if acc = [] then [] else [acc.reverse]
  | c :: rest, acc =>
      if c = '\n' then acc.reverse :: pySplitlinesAux rest []
      else pySplitlinesAux rest (c :: acc)

/-- Python `bytes.splitlines` on newline-delimited data (the log bytes are
modeled as a character list and contain no carriage returns): every
maximal newline-free segment, including a trailing segment that lacks its
terminator; the empty tail after a final newline produces no segment. -/
def pySplitlines (s : List Char) : List (List Char) :=
  pySplitlinesAux s []

/-- One poll tick of `MusicPower._control_loop` (lines 412-427): seek to
the stored offset, read every byte up to end-of-file, advance the stored
offset to `f.tell()` (end-of-file), and split the bytes read into lines,
each of which is then decoded and applied independently.  `file` is the
full log content at the moment of the tick; the returned list holds the
line fragments handed to the decoder. -/
def controlTick (file : List Char) (pos : Nat) : List (List Char) × Nat :=
  (pySplitlines (file.drop pos), file.length)

/-- Successive poll ticks over a growing log: `snapshots` lists the log
content seen at each tick; returns all line fragments handed to the
decoder, in order, and the final offset.  On first attach the offset is
initialised to the size of the log at attach time (`_control_loop`,
lines 407-410). -/
def controlRun (snapshots : List (List Char)) (pos : Nat) :
    List (List Char) × Nat :=
  match snapshots with
  | [] => ([], pos)
  | f :: rest =>
      let t := controlTick f pos
      let r := controlRun rest t.2
      (t.1 ++ r.1, r.2)

/-! Concrete sample data used by witnesses and counterexamples. -/

/-- Sample track A. -/
def trackA : Track := ⟨"A", "urlA", "pageA", 60, 1, none, 0⟩

/-- Sample track B. -/
def trackB : Track := ⟨"B", "urlB", "pageB", 61, 2, none, 0⟩

/-- Sample track C. -/
def trackC : Track := ⟨"C", "urlC", "pageC", 62, 3, none, 0⟩

/-- A player in repeat-queue mode with a current track and one pending
track. -/
def gpQueueSample : GuildPlayer :=
  { initPlayer 1 with
      current := some trackA
      loop_mode := "queue"
      queue := [trackB]
      voice := true }

/-- A player in repeat-track mode with a current track. -/
def gpTrackSample : GuildPlayer :=
  { initPlayer 1 with
      current := some trackA
      loop_mode := "track"
      queue := [trackB]
      voice := true }

/-- A player in repeat-off mode with a current track. -/
def gpOffSample : GuildPlayer :=
  { initPlayer 1 with
      current := some trackA
      loop_mode := "off"
      queue := [trackB]
      voice := true }

/-- A connected player with a current track, used for the
resolution-failure scenario. -/
def gpResolveSample : GuildPlayer :=
  { initPlayer 2 with
      current := some trackC
      loop_mode := "off"
      queue := [trackA]
      voice := true
      play_task := true }

/-- A connected player with an active scheduler-loop task, used for the
teardown scenario. -/
def gpTeardownSample : GuildPlayer :=
  { initPlayer 5 with
      current := some trackA
      queue := [trackB]
      voice := true
      vc_ready := true
      play_task := true }

/-- The control-log record of the volume-500 scenario, with braces
written as their byte escapes. -/
def c2Record : List Char :=
  "\x7b\"action\":\"volume\",\"payload\":\x7b\"guild_id\":7,\"level\":500\x7d\x7d".data

/-- Log content at the first poll tick: the record is only half
written (no terminator yet). -/
def c2Snapshot1 : List Char := "\x7b\"action\":\"volume\",\"payload\"".data

/-- Log content at the second poll tick: the record is complete and
newline-terminated. -/
def c2Snapshot2 : List Char := c2Record ++ "\n".data

/-- A cog state holding session 7 at volume 42. -/
def c4State : MusicPower := ⟨[(7, { initPlayer 7 with volume := 42 })]⟩

/-- Control record: volume action for guild 7 with integer level 0. -/
def c4EvtLevel0 : ControlRecord :=
  ⟨some "volume", some { emptyPayload with guild_id := some 7, level := some 0 }⟩

/-- Control record: volume action for guild 7 with integer level 500. -/
def c4EvtLevel500 : ControlRecord :=
  ⟨some "volume",
   some { emptyPayload with guild_id := some 7, level := some 500 }⟩

/-- A cog state holding session 7 in its initial state (volume 100). -/
def c5State : MusicPower := ⟨[(7, initPlayer 7)]⟩

/-- Control record carrying the session identifier only under the
`session_id` key, as in the specification's volume scenario. -/
def c5EvtSessionOnly : ControlRecord :=
  ⟨some "volume",
   some { emptyPayload with session_id := some 7, level := some 50 }⟩

/-- Control record carrying the session identifier under the `guild_id`
key, as the dispatcher actually requires. -/
def c5EvtGuildKey : ControlRecord :=
  ⟨some "volume",
   some { emptyPayload with guild_id := some 7, level := some 50 }⟩

/-- Control record: loop action for guild 3 with a mode string outside
the four enum values. -/
def c8EvtBanana : ControlRecord :=
  ⟨some "loop", some { emptyPayload with guild_id := some 3, mode := some "banana" }⟩

/-- Control record with an unrecognized action tag for guild 9. -/
def c10EvtUnknown : ControlRecord :=
  ⟨some "frobnicate", some { emptyPayload with guild_id := some 9 }⟩

/-! Helper lemmas about list surgery, shared by the queue theorems. -/

/-- Inserting at a position within bounds is, up to permutation, a cons. -/
theorem insertIdx_perm_cons {α : Type} (x : α) :
    ∀ (n : Nat) (l : List α), n ≤ l.length → (l.insertIdx n x).Perm (x :: l)
  | 0, l, _ => by simp
  | n + 1, [], h => by simp at h
  | n + 1, a :: l, h => by
      simp only [List.insertIdx_succ_cons]
      exact ((insertIdx_perm_cons x n l (by simpa using h)).cons a).trans
        (List.Perm.swap x a l)

/-- A list is, up to permutation, its `i`-th element consed onto the list
with that element erased. -/
theorem perm_get_cons_eraseIdx {α : Type} :
    ∀ (l : List α) (i : Nat) (h : i < l.length),
      l.Perm (l.get ⟨i, h⟩ :: l.eraseIdx i)
  | [], i, h => by simp at h
  | a :: t, 0, _ => by simp
  | a :: t, i + 1, h => by
      have ih := perm_get_cons_eraseIdx t i (by simpa using h)
      simp only [List.eraseIdx_cons_succ, List.get_cons_succ]
      exact (ih.cons a).trans (List.Perm.swap _ a _)

/-- Erasing the `i`-th element and reinserting it at `i` restores the
list. -/
theorem insertIdx_get_eraseIdx {α : Type} :
    ∀ (l : List α) (i : Nat) (h : i < l.length),
      (l.eraseIdx i).insertIdx i (l.get ⟨i, h⟩) = l
  | [], i, h => by simp at h
  | a :: t, 0, _ => rfl
  | a :: t, i + 1, h => by
      simp only [List.eraseIdx_cons_succ, List.get_cons_succ,
        List.insertIdx_succ_cons]
      rw [insertIdx_get_eraseIdx t i (by simpa using h)]

/-- `q_move` with both 1-based indices in bounds: succeeds, permutes, and
the moved element sits exactly at the destination. -/
theorem q_move_inbounds (q : List Track) (src dst : Int)
    (hs1 : 1 ≤ src) (hs2 : src ≤ (q.length : Int))
    (hd1 : 1 ≤ dst) (hd2 : dst ≤ (q.length : Int)) :
    (q_move q src dst).1 = true ∧
    ((q_move q src dst).2).Perm q ∧
    ((q_move q src dst).2)[(dst - 1).toNat]? = q[(src - 1).toNat]? ∧
    (src = dst → q_move q src dst = (true, q)) := by
  have hi : (src - 1).toNat < q.length := by omega
  have hj : (dst - 1).toNat < q.length := by omega
  have hcond : ¬(src - 1 < 0 ∨ dst - 1 < 0 ∨ (q.length : Int) ≤ src - 1 ∨
      (q.length : Int) ≤ dst - 1) := by omega
  have hget : q[(src - 1).toNat]? = some (q.get ⟨(src - 1).toNat, hi⟩) := by
    rw [List.getElem?_eq_getElem hi, List.get_eq_getElem]
  have hqm : q_move q src dst =
      (true, (q.eraseIdx (src - 1).toNat).insertIdx (dst - 1).toNat
        (q.get ⟨(src - 1).toNat, hi⟩)) := by
    simp only [q_move]
    rw [if_neg hcond, hget]
  have hlen : (q.eraseIdx (src - 1).toNat).length = q.length - 1 := by
    have := List.length_eraseIdx_add_one hi
    omega
  have hjle : (dst - 1).toNat ≤ (q.eraseIdx (src - 1).toNat).length := by
    omega
  refine ⟨by rw [hqm], ?_, ?_, ?_⟩
  · rw [hqm]
    exact (insertIdx_perm_cons _ _ _ hjle).trans
      (perm_get_cons_eraseIdx q _ hi).symm
  · rw [hqm, hget]
    have hjlt : (dst - 1).toNat <
        ((q.eraseIdx (src - 1).toNat).insertIdx (dst - 1).toNat
          (q.get ⟨(src - 1).toNat, hi⟩)).length := by
      rw [List.length_insertIdx _ _ hjle]
      omega
    rw [List.getElem?_eq_getElem hjlt]
    rw [List.getElem_insertIdx_self _ _ _ hjle]
  · intro hsd
    subst hsd
    rw [hqm, insertIdx_get_eraseIdx q _ hi]

/-- `q_move` with either index out of bounds: fails and leaves the queue
unchanged. -/
theorem q_move_oob (q : List Track) (src dst : Int)
    (h : src < 1 ∨ (q.length : Int) < src ∨ dst < 1 ∨ (q.length : Int) < dst) :
    q_move q src dst = (false, q) := by
  have hcond : src - 1 < 0 ∨ dst - 1 < 0 ∨ (q.length : Int) ≤ src - 1 ∨
      (q.length : Int) ≤ dst - 1 := by omega
  simp only [q_move]
  rw [if_pos hcond]

/-- Claim C1: each time the completion signal fires with a current track,
the repeat-mode dispatch retains the track and queue unchanged under
`track`; appends the finished track to the queue tail (length grows by
one) and clears the current slot under `queue`; and clears the current
slot leaving the queue unchanged under `off` or `auto`. -/
theorem c1_afterCompletion_repeat_modes (gp : GuildPlayer) (t : Track)
    (hc : gp.current = some t) :
    (gp.loop_mode = "track" → afterCompletion gp = gp) ∧
    (gp.loop_mode = "queue" →
      (afterCompletion gp).queue = gp.queue ++ [t] ∧
      (afterCompletion gp).queue.length = gp.queue.length + 1 ∧
      (afterCompletion gp).current = none) ∧
    ((gp.loop_mode = "off" ∨ gp.loop_mode = "auto") →
      (afterCompletion gp).current = none ∧
      (afterCompletion gp).queue = gp.queue) := by
  refine ⟨?_, ?_, ?_⟩
  · intro h
    simp [afterCompletion, hc, h]
  · intro h
    simp [afterCompletion, hc, h]
  · rintro (h | h) <;> simp [afterCompletion, hc, h]

/-- Witness for C1 at a concrete player in each repeat mode. -/
theorem c1_afterCompletion_repeat_modes_witness :
    (afterCompletion gpTrackSample = gpTrackSample) ∧
    ((afterCompletion gpQueueSample).queue = gpQueueSample.queue ++ [trackA] ∧
      (afterCompletion gpQueueSample).queue.length =
        gpQueueSample.queue.length + 1 ∧
      (afterCompletion gpQueueSample).current = none) ∧
    ((afterCompletion gpOffSample).current = none ∧
      (afterCompletion gpOffSample).queue = gpOffSample.queue) :=
  ⟨(c1_afterCompletion_repeat_modes gpTrackSample trackA (by rfl)).1 (by rfl),
   (c1_afterCompletion_repeat_modes gpQueueSample trackA (by rfl)).2.1 (by rfl),
   (c1_afterCompletion_repeat_modes gpOffSample trackA (by rfl)).2.2
     (Or.inl (by rfl))⟩

/-- Claim C3: `q_move` with both 1-based indices in bounds returns true,
preserves the multiset of items, places the moved item exactly at the
destination position, and is a successful no-op when the indices agree;
with either index out of bounds it returns false and leaves the queue
unchanged; and on the queue A, B, C moving 3 to 1 yields C, A, B. -/
theorem c3_q_move_spec :
    (∀ (q : List Track) (src dst : Int),
      1 ≤ src → src ≤ (q.length : Int) → 1 ≤ dst → dst ≤ (q.length : Int) →
      (q_move q src dst).1 = true ∧
      ((q_move q src dst).2).Perm q ∧
      ((q_move q src dst).2)[(dst - 1).toNat]? = q[(src - 1).toNat]? ∧
      (src = dst → q_move q src dst = (true, q))) ∧
    (∀ (q : List Track) (src dst : Int),
      (src < 1 ∨ (q.length : Int) < src ∨ dst < 1 ∨ (q.length : Int) < dst) →
      q_move q src dst = (false, q)) ∧
    q_move [trackA, trackB, trackC] 3 1 = (true, [trackC, trackA, trackB]) := by
  refine ⟨fun q src dst h1 h2 h3 h4 => q_move_inbounds q src dst h1 h2 h3 h4,
    fun q src dst h => q_move_oob q src dst h, by decide⟩

/-- Witness for C3 at the concrete queue A, B, C with move 3 to 1 and an
out-of-bounds move. -/
theorem c3_q_move_spec_witness :
    ((q_move [trackA, trackB, trackC] 3 1).1 = true ∧
      ((q_move [trackA, trackB, trackC] 3 1).2).Perm [trackA, trackB, trackC] ∧
      ((q_move [trackA, trackB, trackC] 3 1).2)[((1 : Int) - 1).toNat]? =
        [trackA, trackB, trackC][((3 : Int) - 1).toNat]? ∧
      ((3 : Int) = 1 → q_move [trackA, trackB, trackC] 3 1 =
        (true, [trackA, trackB, trackC]))) ∧
    q_move [trackA, trackB] 0 1 = (false, [trackA, trackB]) :=
  ⟨c3_q_move_spec.1 [trackA, trackB, trackC] 3 1 (by decide) (by decide)
      (by decide) (by decide),
   c3_q_move_spec.2.1 [trackA, trackB] 0 1 (by decide)⟩

/-- Claim C7: when the extraction collaborator returns no stream handle
for the current track, the loop raises the completion signal at once and
changes nothing else, so the normal post-completion dispatch runs next
and the broken track cannot stall the queue. -/
theorem c7_skip_on_failure (resolve : String → Option String)
    (gp : GuildPlayer) (t : Track)
    (hv : gp.voice = true) (hc : gp.current = some t)
    (hr : resolve (if t.url = "" then t.webpage_url else t.url) = none) :
    playCurrentTrack resolve gp = { gp with next_event := true } := by
  simp [playCurrentTrack, hv, hc, hr]

/-- Witness for C7 at a concrete player and an extraction collaborator
that always fails. -/
theorem c7_skip_on_failure_witness :
    playCurrentTrack (fun _ => none) gpResolveSample =
      { gpResolveSample with next_event := true } :=
  c7_skip_on_failure (fun _ => none) gpResolveSample trackC (by rfl) (by rfl)
    (by rfl)

/-- Claim C9: `q_remove` with an out-of-range 1-based index returns `none`
and leaves the queue identical; with an in-range index it returns the
removed item and erases exactly that position; and index 99 on a 2-item
queue is a no-op. -/
theorem c9_q_remove_spec :
    (∀ (q : List Track) (index : Int),
      (index < 1 ∨ (q.length : Int) < index) → q_remove q index = (none, q)) ∧
    (∀ (q : List Track) (index : Int),
      1 ≤ index → index ≤ (q.length : Int) →
      (q_remove q index).1 = q[(index - 1).toNat]? ∧
      (q_remove q index).2 = q.eraseIdx (index - 1).toNat) ∧
    q_remove [trackA, trackB] 99 = (none, [trackA, trackB]) := by
  refine ⟨?_, ?_, by decide⟩
  · intro q index h
    have hcond : ¬(0 ≤ index - 1 ∧ index - 1 < (q.length : Int)) := by omega
    simp only [q_remove]
    rw [if_neg hcond]
  · intro q index h1 h2
    have hi : (index - 1).toNat < q.length := by omega
    have hcond : 0 ≤ index - 1 ∧ index - 1 < (q.length : Int) := by omega
    have hget : q[(index - 1).toNat]? =
        some (q.get ⟨(index - 1).toNat, hi⟩) := by
      rw [List.getElem?_eq_getElem hi, List.get_eq_getElem]
    constructor <;>
      · simp only [q_remove]
        rw [if_pos hcond, hget]

/-- Witness for C9 at a concrete 2-item queue with indices 99 and 2. -/
theorem c9_q_remove_spec_witness :
    q_remove [trackA, trackB] 99 = (none, [trackA, trackB]) ∧
    ((q_remove [trackA, trackB] 2).1 =
        [trackA, trackB][((2 : Int) - 1).toNat]? ∧
      (q_remove [trackA, trackB] 2).2 =
        [trackA, trackB].eraseIdx ((2 : Int) - 1).toNat) :=
  ⟨c9_q_remove_spec.1 [trackA, trackB] 99 (by decide),
   c9_q_remove_spec.2.1 [trackA, trackB] 2 (by decide) (by decide)⟩

/-! Helper lemmas about the player map, shared by the control-dispatch
theorems. -/

/-- Lookup after appending, when the key is absent from the prefix. -/
theorem lookup_append_of_none (a : Int) :
    ∀ (l1 l2 : List (Int × GuildPlayer)), l1.lookup a = none →
      (l1 ++ l2).lookup a = l2.lookup a
  | [], l2, _ => rfl
  | (k, v) :: es, l2, h => by
      by_cases hk : a = k
      · subst hk
        rw [List.lookup_cons, beq_self_eq_true] at h
        exact absurd h (by simp)
      · have hb : (a == k) = false := beq_false_of_ne hk
        rw [List.lookup_cons, hb] at h
        rw [List.cons_append, List.lookup_cons, hb]
        exact lookup_append_of_none a es l2 h

/-- Lookup after appending, when the key is present in the prefix. -/
theorem lookup_append_of_some (a : Int) (v : GuildPlayer) :
    ∀ (l1 l2 : List (Int × GuildPlayer)), l1.lookup a = some v →
      (l1 ++ l2).lookup a = some v
  | [], _, h => by simp at h
  | (k, w) :: es, l2, h => by
      by_cases hk : a = k
      · subst hk
        rw [List.lookup_cons, beq_self_eq_true] at h
        rw [List.cons_append, List.lookup_cons, beq_self_eq_true]
        exact h
      · have hb : (a == k) = false := beq_false_of_ne hk
        rw [List.lookup_cons, hb] at h
        rw [List.cons_append, List.lookup_cons, hb]
        exact lookup_append_of_some a v es l2 h

/-- Replacing a stored value with `setEntries` makes lookup return the
new value whenever the key was present. -/
theorem setEntries_lookup_self (gid : Int) (gp v : GuildPlayer) :
    ∀ (l : List (Int × GuildPlayer)), l.lookup gid = some v →
      (setEntries l gid gp).lookup gid = some gp
  | [], hv => by simp at hv
  | (k, w) :: es, hv => by
      by_cases hk : k = gid
      · subst hk
        have hb : (k == k) = true := beq_self_eq_true k
        rw [setEntries, if_pos rfl, List.lookup_cons, hb]
      · have hb : (gid == k) = false := beq_false_of_ne fun hh => hk hh.symm
        rw [List.lookup_cons, hb] at hv
        rw [setEntries, if_neg hk, List.lookup_cons, hb]
        exact setEntries_lookup_self gid gp v es hv

/-- `setEntries` at one key leaves lookup at any other key unchanged. -/
theorem setEntries_lookup_ne (gid g' : Int) (gp : GuildPlayer) (h : g' ≠ gid) :
    ∀ (l : List (Int × GuildPlayer)),
      (setEntries l gid gp).lookup g' = l.lookup g'
  | [] => rfl
  | (k, w) :: es => by
      have ih := setEntries_lookup_ne gid g' gp h es
      by_cases hk : k = gid
      · have hb : (g' == k) = false := beq_false_of_ne (hk ▸ h)
        rw [setEntries, if_pos hk, List.lookup_cons, List.lookup_cons, hb]
        exact ih
      · by_cases hg : g' = k
        · have hb : (g' == k) = true := by rw [hg]; exact beq_self_eq_true k
          rw [setEntries, if_neg hk, List.lookup_cons, List.lookup_cons, hb]
        · have hb : (g' == k) = false := beq_false_of_ne hg
          rw [setEntries, if_neg hk, List.lookup_cons, List.lookup_cons, hb]
          exact ih

/-- Updating the entries at a present key makes lookup return the new
value. -/
theorem setPlayer_lookup_self (st : MusicPower) (gid : Int) (gp : GuildPlayer)
    (h : ∃ v, st.players.lookup gid = some v) :
    (setPlayer st gid gp).players.lookup gid = some gp := by
  obtain ⟨v, hv⟩ := h
  exact setEntries_lookup_self gid gp v st.players hv

/-- Updating the entries at one key leaves lookup at any other key
unchanged. -/
theorem setPlayer_lookup_ne (st : MusicPower) (gid g' : Int) (gp : GuildPlayer)
    (h : g' ≠ gid) :
    (setPlayer st gid gp).players.lookup g' = st.players.lookup g' :=
  setEntries_lookup_ne gid g' gp h st.players

/-- The player handed out by `get_player` is the stored one, or a fresh
one when absent. -/
theorem get_player_fst (st : MusicPower) (gid : Int) :
    (get_player st gid).1 = (st.players.lookup gid).getD (initPlayer gid) := by
  cases h : st.players.lookup gid <;> simp [get_player, h]

/-- After `get_player`, the key is present and maps to the handed-out
player. -/
theorem get_player_lookup_self (st : MusicPower) (gid : Int) :
    ((get_player st gid).2).players.lookup gid = some (get_player st gid).1 := by
  cases h : st.players.lookup gid with
  | some gp => simp [get_player, h]
  | none =>
      simp only [get_player, h]
      rw [lookup_append_of_none _ _ _ h]
      simp [List.lookup]

/-- `get_player` leaves every other key's lookup unchanged. -/
theorem get_player_lookup_ne (st : MusicPower) (gid g' : Int) (h : g' ≠ gid) :
    ((get_player st gid).2).players.lookup g' = st.players.lookup g' := by
  cases hh : st.players.lookup gid with
  | some gp => simp [get_player, hh]
  | none =>
      simp only [get_player, hh]
      cases hg : st.players.lookup g' with
      | some v => exact lookup_append_of_some _ _ _ _ hg
      | none =>
          rw [lookup_append_of_none _ _ _ hg]
          rw [List.lookup, beq_false_of_ne h]
          rfl

/-- A control record whose payload resolves a nonzero guild identifier is
dispatched to exactly that player: its entry becomes the action applied
to the stored (or freshly created) player, and every other key's lookup
is untouched. -/
theorem apply_control_dispatch (shuffleImpl : List Track → List Track)
    (ytdl : String → List Track) (st : MusicPower) (evt : ControlRecord)
    (gid : Int) (hg : ((evt.payload.getD emptyPayload).guild_id).getD 0 = gid)
    (h0 : gid ≠ 0) :
    (apply_control shuffleImpl ytdl st evt).players.lookup gid =
      some (apply_player shuffleImpl ytdl (pyLower (pyOrStr evt.action ""))
        (evt.payload.getD emptyPayload)
        ((st.players.lookup gid).getD (initPlayer gid))) ∧
    (∀ g', g' ≠ gid →
      (apply_control shuffleImpl ytdl st evt).players.lookup g' =
        st.players.lookup g') := by
  constructor
  · simp only [apply_control, hg]
    rw [if_neg h0]
    rw [setPlayer_lookup_self _ _ _
        ⟨(get_player st gid).1, get_player_lookup_self st gid⟩]
    rw [get_player_fst]
  · intro g' hgne
    simp only [apply_control, hg]
    rw [if_neg h0]
    rw [setPlayer_lookup_ne _ _ _ _ hgne, get_player_lookup_ne _ _ _ hgne]

/-- A control record with no resolvable guild identifier (missing payload,
missing key, or zero value) is dropped: the whole cog state is unchanged. -/
theorem apply_control_drop (shuffleImpl : List Track → List Track)
    (ytdl : String → List Track) (st : MusicPower) (evt : ControlRecord)
    (h : ((evt.payload.getD emptyPayload).guild_id).getD 0 = 0) :
    apply_control shuffleImpl ytdl st evt = st := by
  simp only [apply_control, h, if_true]

/-- Per-action reduction: the `volume` arm stores the clamped defaulted
level. -/
theorem apply_player_volume (shuffleImpl : List Track → List Track)
    (ytdl : String → List Track) (p : ControlPayload) (gp : GuildPlayer) :
    apply_player shuffleImpl ytdl "volume" p gp =
      set_volume gp (pyOrInt p.level 100) := by
  simp [apply_player]

/-- Per-action reduction: the `loop` arm stores the defaulted mode string
verbatim. -/
theorem apply_player_loop (shuffleImpl : List Track → List Track)
    (ytdl : String → List Track) (p : ControlPayload) (gp : GuildPlayer) :
    apply_player shuffleImpl ytdl "loop" p gp =
      { gp with loop_mode := pyOrStr p.mode "off" } := by
  simp [apply_player]

/-- Per-action reduction: an unrecognized action leaves the player
untouched. -/
theorem apply_player_unrecognized (shuffleImpl : List Track → List Track)
    (ytdl : String → List Track) (action : String) (p : ControlPayload)
    (gp : GuildPlayer) (ha : ¬ action ∈ recognizedActions) :
    apply_player shuffleImpl ytdl action p gp = gp := by
  simp only [recognizedActions, List.mem_cons, List.not_mem_nil, or_false,
    not_or] at ha
  obtain ⟨h1, h2, h3, h4, h5, h6, h7, h8, h9, h10, h11, h12, h13⟩ := ha
  simp [apply_player, h1, h2, h3, h4, h5, h6, h7, h8, h9, h10, h11, h12, h13]

/-- Claim C2 (code bug): the ingestor advances its offset to end-of-file
on every tick, so a record whose bytes become readable across two ticks
is consumed as two fragments and the complete record is never handed to
the decoder (applied zero times, not exactly once), while the same record
read in one tick is handed over exactly once; the offset after the first
tick already covers the incomplete record's bytes. -/
theorem c2_split_record_lost :
    (controlRun [c2Snapshot1, c2Snapshot2] 0).1.count c2Record = 0 ∧
    (controlRun [c2Snapshot2] 0).1.count c2Record = 1 ∧
    (controlTick c2Snapshot1 0).2 = c2Snapshot1.length ∧
    (controlRun [c2Snapshot1, c2Snapshot2] 0).2 = c2Snapshot2.length := by
  refine ⟨by decide, by decide, by decide, by decide⟩

/-- Claim C4 counterexample: a control volume record with integer level 0
leaves the session at the default volume 100, not at the clamped
requested level, which would be 1. -/
theorem c4_volume_level0_counterexample :
    ((apply_control id (fun _ => []) c4State c4EvtLevel0).players.lookup 7).map
        GuildPlayer.volume = some 100 ∧
    ¬ (100 : Int) = max 1 (min 200 (0 : Int)) := by
  refine ⟨by decide, by decide⟩

/-- Claim C4 (amended): a slash volume command stores exactly the clamped
level; a control volume record stores the clamped level for every nonzero
integer level, and stores the default 100 when the level is missing or 0;
in particular a control record with level 500 yields volume 200. -/
theorem c4_volume_clamped_amended :
    (∀ (gp : GuildPlayer) (level : Int),
      (cmd_volume gp level).volume = max 1 (min 200 level)) ∧
    (∀ (shuffleImpl : List Track → List Track) (ytdl : String → List Track)
        (st : MusicPower) (p : ControlPayload) (gid v : Int),
      p.guild_id = some gid → gid ≠ 0 → p.level = some v → v ≠ 0 →
      ((apply_control shuffleImpl ytdl st
          ⟨some "volume", some p⟩).players.lookup gid).map GuildPlayer.volume =
        some (max 1 (min 200 v))) ∧
    (∀ (shuffleImpl : List Track → List Track) (ytdl : String → List Track)
        (st : MusicPower) (p : ControlPayload) (gid : Int),
      p.guild_id = some gid → gid ≠ 0 → (p.level = none ∨ p.level = some 0) →
      ((apply_control shuffleImpl ytdl st
          ⟨some "volume", some p⟩).players.lookup gid).map GuildPlayer.volume =
        some 100) ∧
    ((apply_control id (fun _ => []) c4State c4EvtLevel500).players.lookup
        7).map GuildPlayer.volume = some 200 := by
  refine ⟨?_, ?_, ?_, by decide⟩
  · intro gp level
    rfl
  · intro shuffleImpl ytdl st p gid v hp h0 hl hv
    have hg : (((⟨some "volume", some p⟩ :
        ControlRecord).payload.getD emptyPayload).guild_id).getD 0 = gid := by
      simp [hp]
    have hd := apply_control_dispatch shuffleImpl ytdl st
      ⟨some "volume", some p⟩ gid hg h0
    rw [hd.1]
    have hact : pyLower (pyOrStr (⟨some "volume", some p⟩ :
        ControlRecord).action "") = "volume" := rfl
    rw [hact, apply_player_volume]
    simp [set_volume, pyOrInt, hl, hv]
  · intro shuffleImpl ytdl st p gid hp h0 hl
    have hg : (((⟨some "volume", some p⟩ :
        ControlRecord).payload.getD emptyPayload).guild_id).getD 0 = gid := by
      simp [hp]
    have hd := apply_control_dispatch shuffleImpl ytdl st
      ⟨some "volume", some p⟩ gid hg h0
    rw [hd.1]
    have hact : pyLower (pyOrStr (⟨some "volume", some p⟩ :
        ControlRecord).action "") = "volume" := rfl
    rw [hact, apply_player_volume]
    rcases hl with hl | hl <;> simp [set_volume, pyOrInt, hl]

/-- Witness for C4 (amended) at a concrete player and the concrete
level-500 control record. -/
theorem c4_volume_clamped_amended_witness :
    (cmd_volume (initPlayer 7) 500).volume = max 1 (min 200 500) ∧
    ((apply_control id (fun _ => []) c4State c4EvtLevel500).players.lookup
        7).map GuildPlayer.volume = some (max 1 (min 200 (500 : Int))) :=
  ⟨c4_volume_clamped_amended.1 (initPlayer 7) 500,
   c4_volume_clamped_amended.2.1 id (fun _ => []) c4State
     { emptyPayload with guild_id := some 7, level := some 500 } 7 500 rfl
     (by decide) rfl (by decide)⟩

/-- Claim C5 counterexample: the record of the specification's volume
scenario, which carries the session identifier only under `session_id`,
is dropped — the state is unchanged and session 7 keeps volume 100
instead of receiving the dispatched level. -/
theorem c5_session_key_counterexample :
    apply_control id (fun _ => []) c5State c5EvtSessionOnly = c5State ∧
    ((apply_control id (fun _ => []) c5State c5EvtSessionOnly).players.lookup
        7).map GuildPlayer.volume = some 100 := by
  refine ⟨by decide, by decide⟩

/-- Claim C5 (amended): a record whose payload carries a nonzero integer
under the key `guild_id` is dispatched to exactly that session's player
(other sessions untouched); a record whose `guild_id` is missing or zero
is dropped silently with no effect on any session, even when a
`session_id` is present. -/
theorem c5_dispatch_amended :
    (∀ (shuffleImpl : List Track → List Track) (ytdl : String → List Track)
        (st : MusicPower) (evt : ControlRecord) (gid : Int),
      ((evt.payload.getD emptyPayload).guild_id).getD 0 = gid → gid ≠ 0 →
      ((apply_control shuffleImpl ytdl st evt).players.lookup gid =
        some (apply_player shuffleImpl ytdl (pyLower (pyOrStr evt.action ""))
          (evt.payload.getD emptyPayload)
          ((st.players.lookup gid).getD (initPlayer gid)))) ∧
      (∀ g', g' ≠ gid →
        (apply_control shuffleImpl ytdl st evt).players.lookup g' =
          st.players.lookup g')) ∧
    (∀ (shuffleImpl : List Track → List Track) (ytdl : String → List Track)
        (st : MusicPower) (evt : ControlRecord),
      ((evt.payload.getD emptyPayload).guild_id).getD 0 = 0 →
      apply_control shuffleImpl ytdl st evt = st) :=
  ⟨fun shuffleImpl ytdl st evt gid hg h0 =>
      apply_control_dispatch shuffleImpl ytdl st evt gid hg h0,
   fun shuffleImpl ytdl st evt h =>
      apply_control_drop shuffleImpl ytdl st evt h⟩

/-- Witness for C5 (amended): a guild-keyed record is dispatched to
session 7 and leaves session 2 alone; the session-keyed record is
dropped. -/
theorem c5_dispatch_amended_witness :
    ((apply_control id (fun _ => []) c5State c5EvtGuildKey).players.lookup 7 =
      some (apply_player id (fun _ => [])
        (pyLower (pyOrStr c5EvtGuildKey.action ""))
        (c5EvtGuildKey.payload.getD emptyPayload)
        ((c5State.players.lookup 7).getD (initPlayer 7)))) ∧
    ((apply_control id (fun _ => []) c5State c5EvtGuildKey).players.lookup 2 =
      c5State.players.lookup 2) ∧
    apply_control id (fun _ => []) c5State c5EvtSessionOnly = c5State :=
  ⟨(c5_dispatch_amended.1 id (fun _ => []) c5State c5EvtGuildKey 7 (by decide)
      (by decide)).1,
   (c5_dispatch_amended.1 id (fun _ => []) c5State c5EvtGuildKey 7 (by decide)
      (by decide)).2 2 (by decide),
   c5_dispatch_amended.2 id (fun _ => []) c5State c5EvtSessionOnly (by decide)⟩

/-- Claim C6 counterexample: tearing down a session with an active
scheduler-loop task does not cancel the task — the task field is
untouched by `disconnect`, so it is still active afterwards. -/
theorem c6_task_not_cancelled_counterexample :
    ¬ (disconnect gpTeardownSample).play_task = false := by decide

/-- Claim C6 (amended): teardown clears the queue and the current track,
raises the completion signal, releases the transport handle and readiness
flag, and is idempotent; it leaves the scheduler-loop task exactly as it
was (the task is parked, not cancelled).  The `leave` control action is
exactly this teardown. -/
theorem c6_teardown_amended :
    (∀ gp : GuildPlayer,
      (disconnect gp).queue = [] ∧ (disconnect gp).current = none ∧
      (disconnect gp).voice = false ∧ (disconnect gp).vc_ready = false ∧
      (disconnect gp).next_event = true ∧
      (disconnect gp).play_task = gp.play_task ∧
      disconnect (disconnect gp) = disconnect gp) ∧
    (∀ (shuffleImpl : List Track → List Track) (ytdl : String → List Track)
        (p : ControlPayload) (gp : GuildPlayer),
      apply_player shuffleImpl ytdl "leave" p gp = disconnect gp) := by
  constructor
  · intro gp
    refine ⟨rfl, rfl, rfl, rfl, rfl, rfl, rfl⟩
  · intro shuffleImpl ytdl p gp
    simp [apply_player]

/-- Claim C8 counterexample: a control loop record with the mode string
banana stores that string as the session's repeat mode, which is outside
the four enum values. -/
theorem c8_loop_mode_counterexample :
    ((apply_control id (fun _ => []) ⟨[]⟩ c8EvtBanana).players.lookup 3).map
        GuildPlayer.loop_mode = some "banana" ∧
    ¬ "banana" ∈ cmdLoopChoices := by
  refine ⟨by decide, by decide⟩

/-- Claim C8 (amended): the slash loop command keeps the repeat mode
within the four enum values whenever its argument is one of them (which
the Discord choice list enforces), and a control loop record keeps it
within the four values whenever the supplied mode is one of them or is
missing or empty (defaulting to off); the control path performs no
validation beyond that default. -/
theorem c8_loop_modes_amended :
    (∀ (gp : GuildPlayer) (mode : String), mode ∈ cmdLoopChoices →
      (cmd_loop gp mode).loop_mode ∈ cmdLoopChoices) ∧
    (∀ (shuffleImpl : List Track → List Track) (ytdl : String → List Track)
        (st : MusicPower) (p : ControlPayload) (gid : Int) (m : String),
      p.guild_id = some gid → gid ≠ 0 → p.mode = some m →
      m ∈ cmdLoopChoices →
      ∃ gp, (apply_control shuffleImpl ytdl st
          ⟨some "loop", some p⟩).players.lookup gid = some gp ∧
        gp.loop_mode ∈ cmdLoopChoices) ∧
    (∀ (shuffleImpl : List Track → List Track) (ytdl : String → List Track)
        (st : MusicPower) (p : ControlPayload) (gid : Int),
      p.guild_id = some gid → gid ≠ 0 → (p.mode = none ∨ p.mode = some "") →
      ∃ gp, (apply_control shuffleImpl ytdl st
          ⟨some "loop", some p⟩).players.lookup gid = some gp ∧
        gp.loop_mode = "off") := by
  refine ⟨?_, ?_, ?_⟩
  · intro gp mode hm
    simpa [cmd_loop] using hm
  · intro shuffleImpl ytdl st p gid m hp h0 hm hmem
    have hg : (((⟨some "loop", some p⟩ :
        ControlRecord).payload.getD emptyPayload).guild_id).getD 0 = gid := by
      simp [hp]
    have hd := apply_control_dispatch shuffleImpl ytdl st
      ⟨some "loop", some p⟩ gid hg h0
    have hact : pyLower (pyOrStr (⟨some "loop", some p⟩ :
        ControlRecord).action "") = "loop" := rfl
    refine ⟨_, by rw [hd.1, hact, apply_player_loop], ?_⟩
    have hne : m ≠ "" := by
      simp only [cmdLoopChoices, List.mem_cons, List.not_mem_nil, or_false]
        at hmem
      rcases hmem with h | h | h | h <;> subst h <;> decide
    simpa [pyOrStr, hm, hne] using hmem
  · intro shuffleImpl ytdl st p gid hp h0 hm
    have hg : (((⟨some "loop", some p⟩ :
        ControlRecord).payload.getD emptyPayload).guild_id).getD 0 = gid := by
      simp [hp]
    have hd := apply_control_dispatch shuffleImpl ytdl st
      ⟨some "loop", some p⟩ gid hg h0
    have hact : pyLower (pyOrStr (⟨some "loop", some p⟩ :
        ControlRecord).action "") = "loop" := rfl
    refine ⟨_, by rw [hd.1, hact, apply_player_loop], ?_⟩
    rcases hm with hm | hm <;> simp [pyOrStr, hm]

/-- Witness for C8 (amended): the slash command at mode queue and a
control loop record at mode track for guild 3. -/
theorem c8_loop_modes_amended_witness :
    (cmd_loop (initPlayer 3) "queue").loop_mode ∈ cmdLoopChoices ∧
    (∃ gp, (apply_control id (fun _ => []) ⟨[]⟩
        ⟨some "loop", some { emptyPayload with guild_id := some 3, mode := some "track" }⟩).players.lookup 3 = some gp ∧
      gp.loop_mode ∈ cmdLoopChoices) :=
  ⟨c8_loop_modes_amended.1 (initPlayer 3) "queue" (by decide),
   c8_loop_modes_amended.2.1 id (fun _ => []) ⟨[]⟩
     { emptyPayload with guild_id := some 3, mode := some "track" } 3 "track"
     rfl (by decide) rfl (by decide)⟩

/-- Claim C10: any control record resolving a nonzero guild identifier
inserts a session entry for that guild when absent, even under an
unrecognized action tag; and an unrecognized action leaves the resolved
session exactly as stored (or freshly initialised) and every other
session's entry untouched. -/
theorem c10_unrecognized_action_frame
    (shuffleImpl : List Track → List Track) (ytdl : String → List Track)
    (st : MusicPower) (evt : ControlRecord) (gid : Int)
    (hg : ((evt.payload.getD emptyPayload).guild_id).getD 0 = gid)
    (h0 : gid ≠ 0)
    (ha : ¬ pyLower (pyOrStr evt.action "") ∈ recognizedActions) :
    (apply_control shuffleImpl ytdl st evt).players.lookup gid =
      some ((st.players.lookup gid).getD (initPlayer gid)) ∧
    (∀ g', g' ≠ gid →
      (apply_control shuffleImpl ytdl st evt).players.lookup g' =
        st.players.lookup g') := by
  have hd := apply_control_dispatch shuffleImpl ytdl st evt gid hg h0
  exact ⟨by rw [hd.1, apply_player_unrecognized _ _ _ _ _ ha], hd.2⟩

/-- Witness for C10: a frobnicate record for guild 9 on the empty state
creates session 9 in its initial state and leaves the absent session 2
absent. -/
theorem c10_unrecognized_action_frame_witness :
    (apply_control id (fun _ => []) ⟨[]⟩ c10EvtUnknown).players.lookup 9 =
      some (((⟨[]⟩ : MusicPower).players.lookup 9).getD (initPlayer 9)) ∧
    (apply_control id (fun _ => []) ⟨[]⟩ c10EvtUnknown).players.lookup 2 =
      (⟨[]⟩ : MusicPower).players.lookup 2 :=
  ⟨(c10_unrecognized_action_frame id (fun _ => []) ⟨[]⟩ c10EvtUnknown 9
      (by decide) (by decide) (by decide)).1,
   (c10_unrecognized_action_frame id (fun _ => []) ⟨[]⟩ c10EvtUnknown 9
      (by decide) (by decide) (by decide)).2 2 (by decide)⟩

end LibertyCountryBot
